import Mathlib

/-!
Verification of the pyovpn certificate-authority / OpenVPN config generator
(`src/pyovpn.py`).

The development has two layers.

The first layer is a pure embedding of the config-assembly pipeline: the
fixed templates COMMON_CONF, SERVER_CONF, CLIENT_CONF and INLINE_CONF, the
`read` helper (file content with Python `str.strip()` applied), the
`read_cert` helper (a Python `split('-----')[-3].strip()` over the stored
PEM certificate), and the document assembly done by `generate_server` and
`generate_client`.  The store is modelled as an association list from
relative file paths to raw file contents.

The second layer is a state machine over an abstract store state,
modelling the orchestrator operations of the script (`generate_server`,
`generate_client`, `revoke`, `crl`, `list_`).  The external easy-rsa
toolchain and the `openvpn --genkey` invocation are external collaborators
whose effects are modelled from the spec (section 4.1); every external
invocation takes an explicit Bool describing whether the process exits
successfully, so partially failed operations (which the script does not
roll back) are represented faithfully.
-/

/-- Python `str.strip()` whitespace predicate, restricted to the ASCII
whitespace characters relevant here. -/
def pyIsSpace (c : Char) : Bool :=
  c = ' ' || c = '\t' || c = '\n' || c = '\r' || c = '\x0b' || c = '\x0c'

/-- Strip `pyIsSpace` characters from both ends of a character list; this is
Python `str.strip()` on the underlying characters. -/
def trimL (l : List Char) : List Char :=
  ((l.dropWhile pyIsSpace).reverse.dropWhile pyIsSpace).reverse

/-- Python `str.strip()` on a string. -/
def pyStrip (s : String) : String := String.mk (trimL s.data)

/-- The five-dash separator that `read_cert` splits on. -/
def dash5 : List Char := ['-', '-', '-', '-', '-']

/-- Helper for the splitter: prepend a character to the first chunk. -/
def consHead (c : Char) : List (List Char) → List (List Char)
  | [] => [[c]]
  | h :: t => (c :: h) :: t

/-- Fueled splitter implementing Python `str.split('-----')`: scan left to
right, cutting at each non-overlapping occurrence of five dashes.  The fuel
is always instantiated with the length of the list, which suffices. -/
def splitCertAux : Nat → List Char → List (List Char)
  | _, [] => [[]]
  | 0, l => [l]
  | f + 1, c :: cs =>
    if (c :: cs).take 5 = dash5 then
      [] :: splitCertAux f (cs.drop 4)
    else
      consHead c (splitCertAux f cs)

/-- Python `s.split('-----')` on a string. -/
def pySplitDashes (s : String) : List (List Char) :=
  splitCertAux s.data.length s.data

/-- The body extraction done by `PyOvpn.read_cert` after reading the file:
`cert.split('-----')[-3].strip()`.  Index `-3` is index 2 of the reversed
chunk list; a Python `IndexError` (fewer than three chunks) is `none`. -/
def certBody (c : String) : Option String :=
  ((pySplitDashes c).reverse.get? 2).map (fun l => String.mk (trimL l))

/-- Store files as an association list from a path (relative to the
destination directory) to the raw file content. -/
def lookupFS : List (String × String) → String → Option String
  | [], _ => none
  | p :: ps, path => if p.1 = path then some p.2 else lookupFS ps path

/-- `PyOvpn.read`: open the file and strip the content; a missing file is a
raised `FileNotFoundError`, modelled as `none`. -/
def readF (fs : List (String × String)) (path : String) : Option String :=
  (lookupFS fs path).map pyStrip

/-- `PyOvpn.read_cert`: read `pki/issued/<name>.crt` and extract the body
between the certificate delimiters. -/
def read_cert (fs : List (String × String)) (name : String) : Option String :=
  (readF fs ("pki/issued/" ++ name ++ ".crt")).bind certBody

/-- The deployment record persisted in `config.json` by `generate_server`. -/
structure DeployRecord where
  server_name : String
  hostname : String
deriving DecidableEq

/-- The COMMON_CONF template constant of the script. -/
def COMMON_CONF : String :=
  "dev tun\nproto udp\ncipher AES-256-CBC\nauth SHA256\ncompress lz4\nverb 3\npersist-key\npersist-tun\ntls-version-min 1.2\n"

/-- The SERVER_CONF template constant of the script. -/
def SERVER_CONF : String :=
  "port 1194\nserver 10.8.0.0 255.255.255.0\nkeepalive 10 120\nremote-cert-tls client\nuser nobody\ngroup nogroup\ncrl-verify /etc/openvpn/crl.pem\nkey-direction 0\n"

/-- The CLIENT_CONF template with its two interpolation slots
(`hostname` on the remote line, `name` on the verify-x509-name line)
substituted. -/
def CLIENT_CONF (hostname name : String) : String :=
  "client\nremote " ++ hostname ++ " 1194\nresolv-retry infinite\nnobind\nremote-cert-tls server\nverify-x509-name " ++ name ++ " name\n"

/-- The PEM delimiter pair that the INLINE_CONF template supplies around the
embedded certificate body. -/
def pemWrap (cert : String) : String :=
  "-----BEGIN CERTIFICATE-----\n" ++ cert ++ "\n-----END CERTIFICATE-----"

/-- The INLINE_CONF template with its four interpolation slots substituted:
CA certificate, certificate body, private key, shared tls-crypt key. -/
def INLINE_CONF (ca cert key tlskey : String) : String :=
  "<ca>\n" ++ ca ++ "\n</ca>\n<cert>\n" ++ pemWrap cert ++ "\n</cert>\n<key>\n" ++ key ++ "\n</key>\n<tls-crypt>\n" ++ tlskey ++ "\n</tls-crypt>\n"

/-- `PyOvpn._inline_conf`: read the CA certificate, the identity certificate
body, the identity private key and the shared secret key, then interpolate
INLINE_CONF.  The dict literal of the source evaluates its reads in this
order. -/
def inline_conf (fs : List (String × String)) (name : String) : Option String :=
  (readF fs "pki/ca.crt").bind fun ca =>
  (read_cert fs name).bind fun cert =>
  (readF fs ("pki/private/" ++ name ++ ".key")).bind fun key =>
  (readF fs "tls.key").bind fun tlskey =>
  some (INLINE_CONF ca cert key tlskey)

/-- The server config document written by `generate_server` (line 109 of
the source): COMMON_CONF + SERVER_CONF + inline block. -/
def renderServerConfig (fs : List (String × String)) (serverName : String) : Option String :=
  (inline_conf fs serverName).map (fun ic => COMMON_CONF ++ SERVER_CONF ++ ic)

/-- The client config document written by `generate_client` (lines 116-121
of the source): COMMON_CONF + interpolated CLIENT_CONF + inline block. -/
def renderClientConfig (fs : List (String × String)) (dr : DeployRecord) (name : String) : Option String :=
  (inline_conf fs name).map
    (fun ic => COMMON_CONF ++ CLIENT_CONF dr.hostname dr.server_name ++ ic)

/-- The alphabet `string.ascii_uppercase + string.digits` that the random
server token is drawn from. -/
def tokenAlphabet : List Char :=
  "ABCDEFGHIJKLMNOPQRSTUVWXYZ0123456789".data

/-- A possible output of `random.choices(string.ascii_uppercase +
string.digits, k=16)` joined to a string: sixteen characters, each from the
alphabet. -/
def tokenOk (t : String) : Prop :=
  t.length = 16 ∧ ∀ c ∈ t.data, c ∈ tokenAlphabet

instance (t : String) : Decidable (tokenOk t) := by
  unfold tokenOk; infer_instance

/-- The server identity name built at line 99 of the source:
the literal prefix followed by the random token. -/
def server_name (token : String) : String := "server_" ++ token

/-- Error taxonomy of the spec (section 7). -/
inductive Err where
  | AlreadyExists
  | NotInitialized
  | IdentityAlreadyExists
  | NotFound
  | AlreadyRevoked
  | DriverFailure
  | IOFailure
deriving DecidableEq

/-- Abstract state of the destination directory across operations.
`issued` is the issued-certificate index: a name paired with its revoked
flag, in issuance order.  `crl` is the generated revocation list (the names
whose certificates it lists), `none` while `gen-crl` has never succeeded
since the last `init-pki`. -/
structure StoreState where
  destExists : Bool
  easyrsaInstalled : Bool
  pkiInitialized : Bool
  caExists : Bool
  configJson : Option DeployRecord
  issued : List (String × Bool)
  tlsKeyExists : Bool
  serverConfWritten : Bool
  crl : Option (List String)
  clientConfs : List String
deriving DecidableEq

/-- The state before any invocation: the destination directory does not
exist. -/
def initState : StoreState :=
  ⟨false, false, false, false, none, [], false, false, none, []⟩

/-- Lookup of a name in the issued-certificate index. -/
def lookupName : List (String × Bool) → String → Option Bool
  | [], _ => none
  | p :: ps, n => if p.1 = n then some p.2 else lookupName ps n

/-- Mark one name revoked in the index. -/
def markRevoked (n : String) (l : List (String × Bool)) : List (String × Bool) :=
  l.map (fun p => if p.1 = n then (p.1, true) else p)

/-- The revoked subset of the index, which a regenerated revocation list
reflects in full. -/
def revokedNames (l : List (String × Bool)) : List String :=
  (l.filter (fun p => p.2)).map (fun p => p.1)

/-- Every easy-rsa invocation runs `easyrsa/easyrsa` with the destination
directory as working directory, so it needs the directory and the extracted
toolchain to exist at all. -/
def easyrsaPre (s : StoreState) : Bool :=
  s.destExists && s.easyrsaInstalled

/-- Modelled from the spec: the external `init-pki` toolchain call
(`Initialize` in section 4.1).  It materializes an empty PKI layout,
wiping any previous index, CA and revocation list.  `ok` is false when the
process exits non-zero. -/
def initPki (ok : Bool) (s : StoreState) : Except Err Unit × StoreState :=
  if easyrsaPre s && ok then
    (.ok (), { s with pkiInitialized := true, caExists := false, issued := [], crl := none })
  else (.error .DriverFailure, s)

/-- Modelled from the spec: the external `build-ca` toolchain call; it
creates the self-signed root certificate. -/
def buildCa (ok : Bool) (s : StoreState) : Except Err Unit × StoreState :=
  if easyrsaPre s && s.pkiInitialized && ok then
    (.ok (), { s with caExists := true })
  else (.error .DriverFailure, s)

/-- Modelled from the spec: the external `build-server-full` and
`build-client-full` toolchain calls (`IssueIdentity` in section 4.1).
A name already present in the index, even revoked, is rejected with
`IdentityAlreadyExists`; otherwise the key and certificate are produced and
the name is appended to the index. -/
def buildFull (name : String) (ok : Bool) (s : StoreState) : Except Err Unit × StoreState :=
  if easyrsaPre s && s.pkiInitialized && s.caExists then
    if (lookupName s.issued name).isSome then (.error .IdentityAlreadyExists, s)
    else if ok then (.ok (), { s with issued := s.issued ++ [(name, false)] })
    else (.error .DriverFailure, s)
  else (.error .DriverFailure, s)

/-- Modelled from the spec: the external `revoke` toolchain call
(`RevokeIdentity` in section 4.1 without the CRL regeneration, which the
script triggers separately).  A name never issued is `NotFound`; a name
already revoked is `AlreadyRevoked`; otherwise the index entry is marked
revoked, irreversibly. -/
def revokeCall (name : String) (ok : Bool) (s : StoreState) : Except Err Unit × StoreState :=
  if easyrsaPre s && s.pkiInitialized then
    match lookupName s.issued name with
    | none => (.error .NotFound, s)
    | some true => (.error .AlreadyRevoked, s)
    | some false =>
      if ok then (.ok (), { s with issued := markRevoked name s.issued })
      else (.error .DriverFailure, s)
  else (.error .DriverFailure, s)

/-- Modelled from the spec: the external `gen-crl` toolchain call
(`RegenerateRevocationList` in section 4.1): the revocation list is
recomputed as a pure function of the full revoked set of the index. -/
def genCrl (ok : Bool) (s : StoreState) : Except Err Unit × StoreState :=
  if easyrsaPre s && s.pkiInitialized && ok then
    (.ok (), { s with crl := some (revokedNames s.issued) })
  else (.error .DriverFailure, s)

/-- `PyOvpn.generate_server`, the bootstrap operation.  `token` is the
sixteen-character random token drawn at line 99; `oDl`, `oInit`, `oCa`,
`oBuild`, `oKey` state whether each external invocation (easy-rsa download,
`init-pki`, `build-ca`, `build-server-full`, `openvpn --genkey`) exits
successfully.  The first statement is `os.makedirs(self.dest)`, which
raises `FileExistsError` if the directory exists; nothing is rolled back on
later failures. -/
def generate_server (hostname token : String) (oDl oInit oCa oBuild oKey : Bool)
    (s : StoreState) : Except Err Unit × StoreState :=
  if s.destExists then (.error .AlreadyExists, s) else
  let s1 := { s with destExists := true }
  if oDl = false then (.error .DriverFailure, s1) else
  let s2 := { s1 with easyrsaInstalled := true }
  match initPki oInit s2 with
  | (.error e, t) => (.error e, t)
  | (.ok _, s3) =>
    match buildCa oCa s3 with
    | (.error e, t) => (.error e, t)
    | (.ok _, s4) =>
      let s5 := { s4 with configJson := some ⟨server_name token, hostname⟩ }
      match buildFull (server_name token) oBuild s5 with
      | (.error e, t) => (.error e, t)
      | (.ok _, s6) =>
        if oKey = false then (.error .DriverFailure, s6) else
        let s7 := { s6 with tlsKeyExists := true }
        (.ok (), { s7 with serverConfWritten := true })

/-- `PyOvpn.generate_client`.  The config file is read first (a missing
file raises, modelled as `NotInitialized`); then `build-client-full` runs;
then the inline block is assembled, whose `tls.key` read fails with an
`IOError` if bootstrap never reached the shared-key generation — after the
issuance already mutated the index. -/
def generate_client (name : String) (oBuild : Bool) (s : StoreState) :
    Except Err Unit × StoreState :=
  match s.configJson with
  | none => (.error .NotInitialized, s)
  | some _ =>
    match buildFull name oBuild s with
    | (.error e, t) => (.error e, t)
    | (.ok _, s2) =>
      if s2.tlsKeyExists then (.ok (), { s2 with clientConfs := name :: s2.clientConfs })
      else (.error .IOFailure, s2)

/-- `PyOvpn.revoke`: the easy-rsa `revoke` call followed by `gen-crl`. -/
def revoke (name : String) (oRevoke oCrl : Bool) (s : StoreState) :
    Except Err Unit × StoreState :=
  match revokeCall name oRevoke s with
  | (.error e, t) => (.error e, t)
  | (.ok _, s2) => genCrl oCrl s2

/-- `PyOvpn.crl`: `gen-crl` then read and print `pki/crl.pem`. -/
def crlOp (oCrl : Bool) (s : StoreState) : Except Err Unit × StoreState :=
  match genCrl oCrl s with
  | (.error e, t) => (.error e, t)
  | (.ok _, s2) => (.ok (), s2)

/-- `PyOvpn.list_`: read and print `pki/index.txt`; read-only. -/
def list_ (s : StoreState) : Except Err Unit × StoreState :=
  if s.destExists && s.pkiInitialized then (.ok (), s) else (.error .IOFailure, s)

/-- One invocation of the script: any operation, with any arguments and any
outcome of the external invocations. -/
inductive Step : StoreState → StoreState → Prop
  | server (hostname token : String) (o1 o2 o3 o4 o5 : Bool) (s : StoreState) :
      Step s (generate_server hostname token o1 o2 o3 o4 o5 s).2
  | client (name : String) (o : Bool) (s : StoreState) :
      Step s (generate_client name o s).2
  | revokeStep (name : String) (o1 o2 : Bool) (s : StoreState) :
      Step s (revoke name o1 o2 s).2
  | crlStep (o : Bool) (s : StoreState) :
      Step s (crlOp o s).2
  | listStep (s : StoreState) :
      Step s (list_ s).2

/-- States of the destination directory reachable by some sequence of
invocations starting from nothing. -/
def Reachable (s : StoreState) : Prop :=
  Relation.ReflTransGen Step initState s

/-- Bootstrap has completed once the server configuration document, the
last artifact of `generate_server`, has been written. -/
def BootstrapCompleted (s : StoreState) : Prop :=
  s.serverConfWritten = true

/-- The CLI action table of the `__main__` block. -/
inductive ActionKind where
  | server
  | client
  | revokeAct
  | list
  | crl
deriving DecidableEq

/-- Dispatch of the first action word through the `actions` dict of the
`__main__` block. -/
def mainAction (verb : String) : Option ActionKind :=
  if verb = "server" then some .server
  else if verb = "client" then some .client
  else if verb = "revoke" then some .revokeAct
  else if verb = "list" then some .list
  else if verb = "crl" then some .crl
  else none

/-- The `__main__` block after argument parsing: if the verb is in the
table the operation runs (its effect on the store abstracted by `exec`) and
the process exits 0 on success and non-zero on an uncaught exception; a
verb outside the table runs nothing at all and the process exits 0. -/
def cliRun (exec : ActionKind → StoreState → Except Err Unit × StoreState)
    (verb : String) (s : StoreState) : StoreState × Nat :=
  match mainAction verb with
  | none => (s, 0)
  | some k =>
    match exec k s with
    | (.ok _, t) => (t, 0)
    | (.error _, t) => (t, 1)

/-- Certificate bodies are base64 text and contain no dash character. -/
def noDash (l : List Char) : Prop := ∀ c ∈ l, c ≠ '-'

instance (l : List Char) : Decidable (noDash l) := by
  unfold noDash; infer_instance

/-- Store fields that can only have been produced after the destination
directory was created. -/
def FlagsImplyDest (s : StoreState) : Prop :=
  (s.easyrsaInstalled = true → s.destExists = true) ∧
  (s.configJson.isSome = true → s.destExists = true) ∧
  (s.pkiInitialized = true → s.destExists = true)

/-- The bootstrap-completion invariant: the root certificate and the shared
secret key both exist exactly when the server config has been written, and
none of the three artifacts can exist without the destination directory. -/
def CaTlsConfInv (s : StoreState) : Prop :=
  ((s.caExists = true ∧ s.tlsKeyExists = true) ↔ s.serverConfWritten = true) ∧
  (s.serverConfWritten = true → s.destExists = true) ∧
  (s.tlsKeyExists = true → s.destExists = true) ∧
  (s.caExists = true → s.destExists = true)

/-- The store state after a fully successful bootstrap from nothing. -/
def bootState (hostname token : String) : StoreState :=
  ⟨true, true, true, true, some ⟨server_name token, hostname⟩,
    [(server_name token, false)], true, true, none, []⟩

/-- The store state after a bootstrap whose `build-server-full` invocation
failed: the PKI and the deployment record exist, but no server certificate,
no shared secret key and no server config. -/
def brokenBoot : StoreState :=
  (generate_server "vpn.example.com" "AAAAAAAAAAAAAAAA" true true true false true initState).2

/-- The store state after bootstrapping and then adding client alice. -/
def issuedState : StoreState :=
  (generate_client "alice" true (bootState "vpn.example.com" "AAAAAAAAAAAAAAAA")).2

/-- A concrete certificate body used by the witnesses. -/
def sampleBody : String := "MIIBsampleAAAA\nBBBBsampleCCCC"

/-- A concrete store content used by the witnesses. -/
def sampleFS : List (String × String) :=
  [("pki/ca.crt", "CAPEMDATA"), ("pki/issued/alice.crt", pemWrap sampleBody),
   ("pki/private/alice.key", "KEYPEMDATA"), ("tls.key", "TLSKEYDATA")]

/-- A concrete deployment record used by the witnesses. -/
def sampleDR : DeployRecord := ⟨server_name "A0B1C2D3E4F5G6H7", "vpn.example.com"⟩

/-- The client document rendered from `sampleFS` and `sampleDR`. -/
def sampleClientDoc : String :=
  COMMON_CONF ++ CLIENT_CONF "vpn.example.com" (server_name "A0B1C2D3E4F5G6H7") ++
    INLINE_CONF "CAPEMDATA" sampleBody "KEYPEMDATA" "TLSKEYDATA"

/-- The server document rendered from `sampleFS` for identity alice. -/
def sampleServerDoc : String :=
  COMMON_CONF ++ SERVER_CONF ++ INLINE_CONF "CAPEMDATA" sampleBody "KEYPEMDATA" "TLSKEYDATA"

theorem take5_ne_dash5 {c : Char} (cs : List Char) (hc : c ≠ '-') :
    ¬((c :: cs).take 5 = dash5) := by
  intro h
  have h1 : (c :: cs).take 5 = c :: cs.take 4 := rfl
  rw [h1] at h
  simp only [dash5] at h
  injection h with h2 _
  exact hc h2

theorem splitCertAux_fuel : ∀ f f' l, l.length ≤ f → l.length ≤ f' →
    splitCertAux f l = splitCertAux f' l := by
  intro f
  induction f with
  | zero =>
    intro f' l h _
    have hl : l = [] := List.eq_nil_of_length_eq_zero (Nat.le_zero.mp h)
    subst hl
    cases f' <;> rfl
  | succ f ih =>
    intro f' l h h'
    cases l with
    | nil => cases f' <;> rfl
    | cons c cs =>
      cases f' with
      | zero => simp at h'
      | succ f'' =>
        simp only [splitCertAux]
        by_cases hd : (c :: cs).take 5 = dash5
        · rw [if_pos hd, if_pos hd]
          have h1 : (cs.drop 4).length ≤ f := by
            rw [List.length_drop]
            simp only [List.length_cons] at h
            omega
          have h2 : (cs.drop 4).length ≤ f'' := by
            rw [List.length_drop]
            simp only [List.length_cons] at h'
            omega
          rw [ih f'' (cs.drop 4) h1 h2]
        · rw [if_neg hd, if_neg hd]
          have h1 : cs.length ≤ f := by simp only [List.length_cons] at h; omega
          have h2 : cs.length ≤ f'' := by simp only [List.length_cons] at h'; omega
          rw [ih f'' cs h1 h2]

theorem splitCertAux_noDash : ∀ (l : List Char), noDash l → ∀ f, l.length ≤ f →
    splitCertAux f l = [l] := by
  intro l
  induction l with
  | nil => intro _ f _; cases f <;> rfl
  | cons c cs ih =>
    intro hnd f hf
    cases f with
    | zero => simp at hf
    | succ f' =>
      simp only [splitCertAux]
      rw [if_neg (take5_ne_dash5 cs (hnd c (by simp)))]
      rw [ih (fun x hx => hnd x (List.mem_cons_of_mem c hx)) f'
        (by simp only [List.length_cons] at hf; omega)]
      rfl

theorem splitCertAux_chunk : ∀ (a : List Char), noDash a → ∀ (b : List Char) (f : Nat),
    (a ++ (dash5 ++ b)).length ≤ f →
    splitCertAux f (a ++ (dash5 ++ b)) = a :: splitCertAux b.length b := by
  intro a
  induction a with
  | nil =>
    intro _ b f hf
    simp only [List.nil_append] at hf ⊢
    cases f with
    | zero =>
      exfalso
      simp only [dash5, List.length_append, List.length_cons, List.length_nil] at hf
      omega
    | succ f' =>
      have e1 : dash5 ++ b = '-' :: ('-' :: '-' :: '-' :: '-' :: b) := rfl
      rw [e1]
      simp only [splitCertAux]
      rw [if_pos (by rfl)]
      have e2 : ('-' :: '-' :: '-' :: '-' :: b).drop 4 = b := rfl
      rw [e2]
      congr 1
      apply splitCertAux_fuel
      · rw [e1] at hf
        simp only [List.length_cons] at hf
        omega
      · exact le_refl _
  | cons c a' ih =>
    intro hnd b f hf
    have hc : c ≠ '-' := hnd c (by simp)
    have e : (c :: a') ++ (dash5 ++ b) = c :: (a' ++ (dash5 ++ b)) := rfl
    rw [e] at hf ⊢
    cases f with
    | zero => simp at hf
    | succ f' =>
      simp only [splitCertAux]
      rw [if_neg (take5_ne_dash5 _ hc)]
      rw [ih (fun x hx => hnd x (List.mem_cons_of_mem c hx)) b f'
        (by simp only [List.length_cons] at hf; omega)]
      rfl

theorem splitCertAux_lead (b : List Char) (f : Nat) (hf : (dash5 ++ b).length ≤ f) :
    splitCertAux f (dash5 ++ b) = [] :: splitCertAux b.length b := by
  have h := splitCertAux_chunk [] (by intro c hc; simp at hc) b f (by simpa using hf)
  simpa using h

theorem dropWhile_cons_false {p : Char → Bool} {c : Char} {l : List Char}
    (h : p c = false) : List.dropWhile p (c :: l) = c :: l := by
  simp [List.dropWhile_cons, h]

theorem trimL_wrap (l : List Char) (hne : l ≠ [])
    (hh : pyIsSpace (l.headD 'x') = false)
    (hl : pyIsSpace (l.getLastD 'x') = false) :
    trimL ('\n' :: (l ++ ['\n'])) = l := by
  obtain ⟨c, t, rfl⟩ : ∃ c t, l = c :: t := by
    cases l with
    | nil => exact absurd rfl hne
    | cons c t => exact ⟨c, t, rfl⟩
  have hc : pyIsSpace c = false := by simpa using hh
  unfold trimL
  have hnl : pyIsSpace '\n' = true := rfl
  have s1 : List.dropWhile pyIsSpace ('\n' :: ((c :: t) ++ ['\n'])) =
      List.dropWhile pyIsSpace ((c :: t) ++ ['\n']) := by
    simp [List.dropWhile_cons, hnl]
  have s2 : List.dropWhile pyIsSpace ((c :: t) ++ ['\n']) = (c :: t) ++ ['\n'] := by
    have e : (c :: t) ++ ['\n'] = c :: (t ++ ['\n']) := rfl
    rw [e, dropWhile_cons_false hc]
  rw [s1, s2]
  have s3 : ((c :: t) ++ ['\n']).reverse = '\n' :: (c :: t).reverse := by
    simp [List.reverse_append]
  rw [s3]
  have s4 : List.dropWhile pyIsSpace ('\n' :: (c :: t).reverse) =
      List.dropWhile pyIsSpace ((c :: t).reverse) := by
    simp [List.dropWhile_cons, hnl]
  rw [s4]
  obtain ⟨rc, rt, hr⟩ : ∃ rc rt, (c :: t).reverse = rc :: rt := by
    cases hrev : (c :: t).reverse with
    | nil => exact absurd (congrArg List.length hrev) (by simp)
    | cons rc rt => exact ⟨rc, rt, rfl⟩
  have hrc : pyIsSpace rc = false := by
    have h1 : (c :: t).reverse.headD 'x' = rc := by rw [hr]; rfl
    have h2 : (c :: t).reverse.headD 'x' = (c :: t).getLastD 'x' := by
      rw [List.headD_eq_head?_getD, List.head?_reverse, ← List.getLastD_eq_getLast?]
    have h3 : rc = (c :: t).getLastD 'x' := by rw [← h1, h2]
    rw [h3]
    exact hl
  rw [hr, dropWhile_cons_false hrc, ← hr, List.reverse_reverse]

theorem certBody_pemWrap (body : String) (hnd : noDash body.data) (hne : body.data ≠ [])
    (hh : pyIsSpace (body.data.headD 'x') = false)
    (hl : pyIsSpace (body.data.getLastD 'x') = false) :
    certBody (pemWrap body) = some body := by
  have e0 : (pemWrap body).data =
      "-----BEGIN CERTIFICATE-----\n".data ++
        (body.data ++ "\n-----END CERTIFICATE-----".data) := by
    simp [pemWrap, String.data_append]
  have e1 : "-----BEGIN CERTIFICATE-----\n".data ++
        (body.data ++ "\n-----END CERTIFICATE-----".data) =
      dash5 ++ ("BEGIN CERTIFICATE".data ++
        (dash5 ++ ('\n' :: (body.data ++ "\n-----END CERTIFICATE-----".data)))) := rfl
  have e2 : ('\n' : Char) :: (body.data ++ "\n-----END CERTIFICATE-----".data) =
      ('\n' :: (body.data ++ ['\n'])) ++
        (dash5 ++ ("END CERTIFICATE".data ++ (dash5 ++ ([] : List Char)))) := by
    have e2a : "\n-----END CERTIFICATE-----".data =
        '\n' :: (dash5 ++ ("END CERTIFICATE".data ++ (dash5 ++ ([] : List Char)))) := rfl
    rw [e2a]
    simp
  have hmid : noDash ('\n' :: (body.data ++ ['\n'])) := by
    intro x hx
    simp only [List.mem_cons, List.mem_append, List.mem_singleton] at hx
    rcases hx with h | h | h | h
    · subst h; decide
    · exact hnd x h
    · subst h; decide
    · simp at h
  have hsplit : pySplitDashes (pemWrap body) =
      [[], "BEGIN CERTIFICATE".data, '\n' :: (body.data ++ ['\n']),
        "END CERTIFICATE".data, []] := by
    unfold pySplitDashes
    rw [e0, e1]
    rw [splitCertAux_lead _ _ (le_refl _)]
    rw [splitCertAux_chunk "BEGIN CERTIFICATE".data (by decide) _ _ (le_refl _)]
    rw [e2]
    rw [splitCertAux_chunk ('\n' :: (body.data ++ ['\n'])) hmid _ _ (le_refl _)]
    rw [splitCertAux_chunk "END CERTIFICATE".data (by decide) _ _ (le_refl _)]
    rfl
  unfold certBody
  rw [hsplit]
  show some (String.mk (trimL ('\n' :: (body.data ++ ['\n'])))) = some body
  rw [trimL_wrap body.data hne hh hl]

theorem str_assoc (a b c : String) : (a ++ b) ++ c = a ++ (b ++ c) := by
  apply String.ext
  simp [String.data_append]

theorem renderClientConfig_some (fs : List (String × String)) (dr : DeployRecord)
    (n doc : String) (h : renderClientConfig fs dr n = some doc) :
    ∃ ca cert key tlskey,
      readF fs "pki/ca.crt" = some ca ∧
      read_cert fs n = some cert ∧
      readF fs ("pki/private/" ++ n ++ ".key") = some key ∧
      readF fs "tls.key" = some tlskey ∧
      doc = COMMON_CONF ++ CLIENT_CONF dr.hostname dr.server_name ++
        INLINE_CONF ca cert key tlskey := by
  unfold renderClientConfig inline_conf at h
  rcases Option.map_eq_some'.mp h with ⟨ic, hic, hdoc⟩
  rcases Option.bind_eq_some.mp hic with ⟨ca, hca, h1⟩
  rcases Option.bind_eq_some.mp h1 with ⟨cert, hcert, h2⟩
  rcases Option.bind_eq_some.mp h2 with ⟨key, hkey, h3⟩
  rcases Option.bind_eq_some.mp h3 with ⟨tlskey, htls, h4⟩
  have hic2 : ic = INLINE_CONF ca cert key tlskey := (Option.some_inj.mp h4).symm
  subst hic2
  exact ⟨ca, cert, key, tlskey, hca, hcert, hkey, htls, hdoc.symm⟩

theorem renderServerConfig_some (fs : List (String × String))
    (sn doc : String) (h : renderServerConfig fs sn = some doc) :
    ∃ ca cert key tlskey,
      readF fs "pki/ca.crt" = some ca ∧
      read_cert fs sn = some cert ∧
      readF fs ("pki/private/" ++ sn ++ ".key") = some key ∧
      readF fs "tls.key" = some tlskey ∧
      doc = COMMON_CONF ++ SERVER_CONF ++ INLINE_CONF ca cert key tlskey := by
  unfold renderServerConfig inline_conf at h
  rcases Option.map_eq_some'.mp h with ⟨ic, hic, hdoc⟩
  rcases Option.bind_eq_some.mp hic with ⟨ca, hca, h1⟩
  rcases Option.bind_eq_some.mp h1 with ⟨cert, hcert, h2⟩
  rcases Option.bind_eq_some.mp h2 with ⟨key, hkey, h3⟩
  rcases Option.bind_eq_some.mp h3 with ⟨tlskey, htls, h4⟩
  have hic2 : ic = INLINE_CONF ca cert key tlskey := (Option.some_inj.mp h4).symm
  subst hic2
  exact ⟨ca, cert, key, tlskey, hca, hcert, hkey, htls, hdoc.symm⟩

example : renderClientConfig sampleFS sampleDR "alice" = some sampleClientDoc := by rfl

example : renderServerConfig sampleFS "alice" = some sampleServerDoc := by rfl

/-- Claim C2: for every issued identity whose stored certificate strips to a
well-formed PEM block, the certificate body embedded in a rendered config is
exactly the text strictly between the BEGIN/END certificate delimiter lines
of the stored PEM certificate, and the rendered output reproduces those same
delimiter markers verbatim around the embedded body. -/
theorem cert_embedding_contract (fs : List (String × String)) (dr : DeployRecord)
    (n body raw doc : String)
    (hfile : lookupFS fs ("pki/issued/" ++ n ++ ".crt") = some raw)
    (hstrip : pyStrip raw = pemWrap body)
    (hnd : noDash body.data) (hne : body.data ≠ [])
    (hh : pyIsSpace (body.data.headD 'x') = false)
    (hl : pyIsSpace (body.data.getLastD 'x') = false)
    (hdoc : renderClientConfig fs dr n = some doc) :
    read_cert fs n = some body ∧ ∃ a b, doc = a ++ pemWrap body ++ b := by
  have hrc : read_cert fs n = some body := by
    unfold read_cert readF
    rw [hfile]
    show certBody (pyStrip raw) = some body
    rw [hstrip]
    exact certBody_pemWrap body hnd hne hh hl
  refine ⟨hrc, ?_⟩
  obtain ⟨ca, cert, key, tlskey, hca, hcert, hkey, htls, hd⟩ :=
    renderClientConfig_some fs dr n doc hdoc
  have hcb : cert = body := by
    rw [hrc] at hcert
    exact (Option.some_inj.mp hcert).symm
  subst hcb
  refine ⟨COMMON_CONF ++ CLIENT_CONF dr.hostname dr.server_name ++
      ("<ca>\n" ++ ca ++ "\n</ca>\n<cert>\n"),
    "\n</cert>\n<key>\n" ++ key ++ "\n</key>\n<tls-crypt>\n" ++ tlskey ++ "\n</tls-crypt>\n", ?_⟩
  rw [hd]
  unfold INLINE_CONF
  simp only [str_assoc]

theorem cert_embedding_contract_witness :
    read_cert sampleFS "alice" = some sampleBody ∧
    ∃ a b, sampleClientDoc = a ++ pemWrap sampleBody ++ b :=
  cert_embedding_contract sampleFS sampleDR "alice" sampleBody (pemWrap sampleBody)
    sampleClientDoc (by rfl) (by rfl) (by decide) (by decide) (by decide) (by decide) (by rfl)

/-- Claim C3: every rendered config document, server and client, is the
concatenation in fixed order of the common settings, the role-specific
settings, and the inline credential block embedding the CA certificate, the
identity certificate body only (the PEM delimiters come from the fixed
template), the identity private key and the shared secret key, in that
structural order. -/
theorem config_document_structure :
    (∀ fs sn doc, renderServerConfig fs sn = some doc →
      ∃ ca cert key tlskey,
        readF fs "pki/ca.crt" = some ca ∧
        read_cert fs sn = some cert ∧
        readF fs ("pki/private/" ++ sn ++ ".key") = some key ∧
        readF fs "tls.key" = some tlskey ∧
        doc = COMMON_CONF ++ SERVER_CONF ++
          ("<ca>\n" ++ ca ++ "\n</ca>\n<cert>\n" ++ pemWrap cert ++
            "\n</cert>\n<key>\n" ++ key ++ "\n</key>\n<tls-crypt>\n" ++
            tlskey ++ "\n</tls-crypt>\n")) ∧
    (∀ fs dr n doc, renderClientConfig fs dr n = some doc →
      ∃ ca cert key tlskey,
        readF fs "pki/ca.crt" = some ca ∧
        read_cert fs n = some cert ∧
        readF fs ("pki/private/" ++ n ++ ".key") = some key ∧
        readF fs "tls.key" = some tlskey ∧
        doc = COMMON_CONF ++ CLIENT_CONF dr.hostname dr.server_name ++
          ("<ca>\n" ++ ca ++ "\n</ca>\n<cert>\n" ++ pemWrap cert ++
            "\n</cert>\n<key>\n" ++ key ++ "\n</key>\n<tls-crypt>\n" ++
            tlskey ++ "\n</tls-crypt>\n")) := by
  constructor
  · intro fs sn doc h
    obtain ⟨ca, cert, key, tlskey, hca, hcert, hkey, htls, hd⟩ :=
      renderServerConfig_some fs sn doc h
    exact ⟨ca, cert, key, tlskey, hca, hcert, hkey, htls, hd⟩
  · intro fs dr n doc h
    obtain ⟨ca, cert, key, tlskey, hca, hcert, hkey, htls, hd⟩ :=
      renderClientConfig_some fs dr n doc h
    exact ⟨ca, cert, key, tlskey, hca, hcert, hkey, htls, hd⟩

theorem config_document_structure_witness :
    (∃ ca cert key tlskey,
      readF sampleFS "pki/ca.crt" = some ca ∧
      read_cert sampleFS "alice" = some cert ∧
      readF sampleFS ("pki/private/" ++ "alice" ++ ".key") = some key ∧
      readF sampleFS "tls.key" = some tlskey ∧
      sampleServerDoc = COMMON_CONF ++ SERVER_CONF ++
        ("<ca>\n" ++ ca ++ "\n</ca>\n<cert>\n" ++ pemWrap cert ++
          "\n</cert>\n<key>\n" ++ key ++ "\n</key>\n<tls-crypt>\n" ++
          tlskey ++ "\n</tls-crypt>\n")) ∧
    (∃ ca cert key tlskey,
      readF sampleFS "pki/ca.crt" = some ca ∧
      read_cert sampleFS "alice" = some cert ∧
      readF sampleFS ("pki/private/" ++ "alice" ++ ".key") = some key ∧
      readF sampleFS "tls.key" = some tlskey ∧
      sampleClientDoc = COMMON_CONF ++ CLIENT_CONF sampleDR.hostname sampleDR.server_name ++
        ("<ca>\n" ++ ca ++ "\n</ca>\n<cert>\n" ++ pemWrap cert ++
          "\n</cert>\n<key>\n" ++ key ++ "\n</key>\n<tls-crypt>\n" ++
          tlskey ++ "\n</tls-crypt>\n")) :=
  ⟨config_document_structure.1 sampleFS "alice" sampleServerDoc (by rfl),
   config_document_structure.2 sampleFS sampleDR "alice" sampleClientDoc (by rfl)⟩

/-- Claim C7: client-config rendering is a deterministic pure function of
the store contents and the deployment record.  Two stores agreeing on the
four files the renderer reads produce the same document, so rendering twice
with no intervening store mutation is byte-identical. -/
theorem renderClientConfig_pure (fs1 fs2 : List (String × String)) (dr : DeployRecord)
    (n : String)
    (hca : lookupFS fs1 "pki/ca.crt" = lookupFS fs2 "pki/ca.crt")
    (hcert : lookupFS fs1 ("pki/issued/" ++ n ++ ".crt") =
      lookupFS fs2 ("pki/issued/" ++ n ++ ".crt"))
    (hkey : lookupFS fs1 ("pki/private/" ++ n ++ ".key") =
      lookupFS fs2 ("pki/private/" ++ n ++ ".key"))
    (htls : lookupFS fs1 "tls.key" = lookupFS fs2 "tls.key") :
    renderClientConfig fs1 dr n = renderClientConfig fs2 dr n := by
  unfold renderClientConfig inline_conf read_cert readF
  rw [hca, hcert, hkey, htls]

theorem renderClientConfig_pure_witness :
    renderClientConfig sampleFS sampleDR "alice" = renderClientConfig sampleFS sampleDR "alice" :=
  renderClientConfig_pure sampleFS sampleFS sampleDR "alice" rfl rfl rfl rfl

/-- Claim C8: in every rendered client config, the verify-x509-name line
carries the server identity name taken from the deployment record, and the
remote line is the deployment hostname followed by port 1194. -/
theorem client_remote_and_verify (fs : List (String × String)) (dr : DeployRecord)
    (n doc : String) (hdoc : renderClientConfig fs dr n = some doc) :
    (∃ a b, doc = a ++ ("remote " ++ dr.hostname ++ " 1194\n") ++ b) ∧
    (∃ a b, doc = a ++ ("verify-x509-name " ++ dr.server_name ++ " name\n") ++ b) := by
  obtain ⟨ca, cert, key, tlskey, _, _, _, _, hd⟩ := renderClientConfig_some fs dr n doc hdoc
  subst hd
  constructor
  · refine ⟨COMMON_CONF ++ "client\n",
      "resolv-retry infinite\nnobind\nremote-cert-tls server\nverify-x509-name " ++
        dr.server_name ++ " name\n" ++ INLINE_CONF ca cert key tlskey, ?_⟩
    unfold CLIENT_CONF
    have l1 : ("client\nremote " : String) = "client\n" ++ "remote " := rfl
    have l2 : (" 1194\nresolv-retry infinite\nnobind\nremote-cert-tls server\nverify-x509-name " : String) =
        " 1194\n" ++ "resolv-retry infinite\nnobind\nremote-cert-tls server\nverify-x509-name " := rfl
    rw [l1, l2]
    simp only [str_assoc]
  · refine ⟨COMMON_CONF ++ ("client\nremote " ++ dr.hostname ++
      " 1194\nresolv-retry infinite\nnobind\nremote-cert-tls server\n"),
      INLINE_CONF ca cert key tlskey, ?_⟩
    unfold CLIENT_CONF
    have l3 : (" 1194\nresolv-retry infinite\nnobind\nremote-cert-tls server\nverify-x509-name " : String) =
        " 1194\nresolv-retry infinite\nnobind\nremote-cert-tls server\n" ++ "verify-x509-name " := rfl
    rw [l3]
    simp only [str_assoc]

theorem client_remote_and_verify_witness :
    (∃ a b, sampleClientDoc = a ++ ("remote " ++ sampleDR.hostname ++ " 1194\n") ++ b) ∧
    (∃ a b, sampleClientDoc =
      a ++ ("verify-x509-name " ++ sampleDR.server_name ++ " name\n") ++ b) :=
  client_remote_and_verify sampleFS sampleDR "alice" sampleClientDoc (by rfl)

theorem buildFull_cases (name : String) (o : Bool) (s : StoreState) :
    (∃ e, buildFull name o s = (.error e, s)) ∨
    ((easyrsaPre s && s.pkiInitialized && s.caExists) = true ∧
      lookupName s.issued name = none ∧
      buildFull name o s = (.ok (), { s with issued := s.issued ++ [(name, false)] })) := by
  unfold buildFull
  by_cases h1 : (easyrsaPre s && s.pkiInitialized && s.caExists) = true
  · rw [if_pos h1]
    by_cases h2 : (lookupName s.issued name).isSome = true
    · rw [if_pos h2]
      exact .inl ⟨.IdentityAlreadyExists, rfl⟩
    · rw [if_neg h2]
      cases o with
      | false =>
        rw [if_neg (by simp)]
        exact .inl ⟨.DriverFailure, rfl⟩
      | true =>
        rw [if_pos rfl]
        exact .inr ⟨h1, Option.not_isSome_iff_eq_none.mp (by simpa using h2), rfl⟩
  · rw [if_neg h1]
    exact .inl ⟨.DriverFailure, rfl⟩

theorem revokeCall_cases (name : String) (o : Bool) (s : StoreState) :
    (∃ e, revokeCall name o s = (.error e, s)) ∨
    ((easyrsaPre s && s.pkiInitialized) = true ∧
      lookupName s.issued name = some false ∧
      revokeCall name o s = (.ok (), { s with issued := markRevoked name s.issued })) := by
  unfold revokeCall
  by_cases h1 : (easyrsaPre s && s.pkiInitialized) = true
  · rw [if_pos h1]
    cases hl : lookupName s.issued name with
    | none => exact .inl ⟨.NotFound, rfl⟩
    | some b =>
      cases b with
      | false =>
        cases o with
        | false =>
          rw [if_neg (by simp)]
          exact .inl ⟨.DriverFailure, rfl⟩
        | true =>
          rw [if_pos rfl]
          exact .inr ⟨h1, rfl, rfl⟩
      | true => exact .inl ⟨.AlreadyRevoked, rfl⟩
  · rw [if_neg h1]
    exact .inl ⟨.DriverFailure, rfl⟩

theorem genCrl_cases (o : Bool) (s : StoreState) :
    genCrl o s = (.error .DriverFailure, s) ∨
    ((easyrsaPre s && s.pkiInitialized && o) = true ∧
      genCrl o s = (.ok (), { s with crl := some (revokedNames s.issued) })) := by
  unfold genCrl
  by_cases h : (easyrsaPre s && s.pkiInitialized && o) = true
  · rw [if_pos h]
    exact .inr ⟨h, rfl⟩
  · rw [if_neg h]
    exact .inl rfl

/-- The makedirs guard: a bootstrap against an existing destination
directory fails immediately at `os.makedirs` and changes nothing. -/
theorem generate_server_existing (hostname token : String) (o1 o2 o3 o4 o5 : Bool)
    (s : StoreState) (hd : s.destExists = true) :
    generate_server hostname token o1 o2 o3 o4 o5 s = (.error .AlreadyExists, s) := by
  unfold generate_server
  rw [if_pos hd]

theorem generate_client_effects (name : String) (o : Bool) (s : StoreState) :
    (generate_client name o s).2 = s ∨
    (lookupName s.issued name = none ∧
      ((generate_client name o s).2 = { s with issued := s.issued ++ [(name, false)] } ∨
       (generate_client name o s).2 =
         { s with issued := s.issued ++ [(name, false)],
                  clientConfs := name :: s.clientConfs })) := by
  unfold generate_client
  cases hc : s.configJson with
  | none => exact .inl rfl
  | some d =>
    rcases buildFull_cases name o s with ⟨e, hb⟩ | ⟨hpre, hn, hb⟩
    · rw [hb]
      exact .inl rfl
    · simp only [hb]
      rw [← hc]
      by_cases ht : s.tlsKeyExists = true
      · rw [if_pos ht]
        exact .inr ⟨hn, .inr rfl⟩
      · rw [if_neg ht]
        exact .inr ⟨hn, .inl rfl⟩

theorem revoke_effects (name : String) (o1 o2 : Bool) (s : StoreState) :
    (revoke name o1 o2 s).2 = s ∨
    (lookupName s.issued name = some false ∧
      ((revoke name o1 o2 s).2 = { s with issued := markRevoked name s.issued } ∨
       (revoke name o1 o2 s).2 =
         { s with issued := markRevoked name s.issued,
                  crl := some (revokedNames (markRevoked name s.issued)) })) := by
  unfold revoke
  rcases revokeCall_cases name o1 s with ⟨e, hb⟩ | ⟨hpre, hl, hb⟩
  · rw [hb]
    exact .inl rfl
  · simp only [hb]
    rcases genCrl_cases o2 { s with issued := markRevoked name s.issued } with h | ⟨_, h⟩
    · rw [h]
      exact .inr ⟨hl, .inl rfl⟩
    · rw [h]
      exact .inr ⟨hl, .inr rfl⟩

theorem crlOp_effects (o : Bool) (s : StoreState) :
    (crlOp o s).2 = s ∨
    (crlOp o s).2 = { s with crl := some (revokedNames s.issued) } := by
  unfold crlOp
  rcases genCrl_cases o s with h | ⟨_, h⟩
  · rw [h]
    exact .inl rfl
  · rw [h]
    exact .inr rfl

theorem list_effects (s : StoreState) : (list_ s).2 = s := by
  unfold list_
  split <;> rfl

theorem lookupName_append_some (l : List (String × Bool)) (x : String × Bool)
    (n : String) (b : Bool) (h : lookupName l n = some b) :
    lookupName (l ++ [x]) n = some b := by
  induction l with
  | nil => simp [lookupName] at h
  | cons p ps ih =>
    by_cases hp : p.1 = n
    · simp only [List.cons_append, lookupName, if_pos hp] at h ⊢
      exact h
    · simp only [List.cons_append, lookupName, if_neg hp] at h ⊢
      exact ih h

theorem lookupName_append_isSome (l : List (String × Bool)) (x : String × Bool)
    (n : String) (h : (lookupName l n).isSome = true) :
    (lookupName (l ++ [x]) n).isSome = true := by
  cases hb : lookupName l n with
  | none => rw [hb] at h; simp at h
  | some b => rw [lookupName_append_some l x n b hb]; rfl

theorem lookupName_append_self (l : List (String × Bool)) (n : String) (b : Bool)
    (h : lookupName l n = none) : lookupName (l ++ [(n, b)]) n = some b := by
  induction l with
  | nil => simp [lookupName]
  | cons p ps ih =>
    by_cases hp : p.1 = n
    · simp only [lookupName, if_pos hp] at h
      exact absurd h (by simp)
    · simp only [List.cons_append, lookupName, if_neg hp] at h ⊢
      exact ih h

theorem lookupName_markRevoked (m : String) (l : List (String × Bool)) (n : String) :
    lookupName (markRevoked m l) n =
      if n = m then (lookupName l n).map (fun _ => true) else lookupName l n := by
  induction l with
  | nil => simp [markRevoked, lookupName]
  | cons p ps ih =>
    rw [show markRevoked m (p :: ps) =
      (if p.1 = m then (p.1, true) else p) :: markRevoked m ps from rfl]
    by_cases hpm : p.1 = m
    · by_cases hpn : p.1 = n
      · have hnm : n = m := hpn ▸ hpm
        rw [if_pos hpm]
        simp only [lookupName, if_pos hpn, if_pos hnm]
        rfl
      · rw [if_pos hpm]
        simp only [lookupName, if_neg hpn, ih]
    · by_cases hpn : p.1 = n
      · have hnm : ¬(n = m) := fun hnm => hpm (hnm ▸ hpn)
        rw [if_neg hpm]
        simp only [lookupName, if_pos hpn, if_neg hnm]
      · rw [if_neg hpm]
        simp only [lookupName, if_neg hpn, ih]

theorem mem_revokedNames (l : List (String × Bool)) (n : String)
    (h : lookupName l n = some true) : n ∈ revokedNames l := by
  induction l with
  | nil => simp [lookupName] at h
  | cons p ps ih =>
    by_cases hp : p.1 = n
    · simp only [lookupName, if_pos hp] at h
      have h2 : p.2 = true := Option.some_inj.mp h
      unfold revokedNames
      rw [List.filter_cons, if_pos (by simp [h2]), List.map_cons, hp]
      exact List.mem_cons_self n _
    · simp only [lookupName, if_neg hp] at h
      have hmem := ih h
      unfold revokedNames at hmem ⊢
      rw [List.filter_cons]
      by_cases h2 : p.2 = true
      · rw [if_pos (by simp [h2]), List.map_cons]
        exact List.mem_cons_of_mem _ hmem
      · rw [if_neg (by simp [h2])]
        exact hmem

theorem generate_server_boot (hostname token : String) (o1 o2 o3 o4 o5 : Bool)
    (hok : (generate_server hostname token o1 o2 o3 o4 o5 initState).1 = .ok ()) :
    (generate_server hostname token o1 o2 o3 o4 o5 initState).2 = bootState hostname token := by
  cases o1 <;> cases o2 <;> cases o3 <;> cases o4 <;> cases o5 <;>
    first
      | rfl
      | simp [generate_server, initPki, buildFull, buildCa, easyrsaPre, initState,
          lookupName] at hok

theorem generate_server_destExists (hostname token : String) (o1 o2 o3 o4 o5 : Bool)
    (s : StoreState) (hd : s.destExists = false) :
    (generate_server hostname token o1 o2 o3 o4 o5 s).2.destExists = true := by
  cases o1 <;> cases o2 <;> cases o3 <;> cases o4 <;> cases o5 <;>
    simp [generate_server, initPki, buildFull, buildCa, easyrsaPre, lookupName, hd]

theorem generate_server_catls (hostname token : String) (o1 o2 o3 o4 o5 : Bool)
    (s : StoreState) (hd : s.destExists = false) (hca : s.caExists = false)
    (htls : s.tlsKeyExists = false) (hconf : s.serverConfWritten = false) :
    CaTlsConfInv (generate_server hostname token o1 o2 o3 o4 o5 s).2 := by
  cases o1 <;> cases o2 <;> cases o3 <;> cases o4 <;> cases o5 <;>
    simp [CaTlsConfInv, generate_server, initPki, buildFull, buildCa, easyrsaPre,
      lookupName, hd, hca, htls, hconf]

theorem step_keep (n : String) {s t : StoreState} (hst : Step s t) (hd : s.destExists = true) :
    t.destExists = true ∧
    (s.easyrsaInstalled = true → t.easyrsaInstalled = true) ∧
    (s.pkiInitialized = true → t.pkiInitialized = true) ∧
    (s.caExists = true → t.caExists = true) ∧
    (∀ d, s.configJson = some d → t.configJson = some d) ∧
    (lookupName s.issued n = some true → lookupName t.issued n = some true) ∧
    ((lookupName s.issued n).isSome = true → (lookupName t.issued n).isSome = true) := by
  cases hst with
  | server hostname token o1 o2 o3 o4 o5 s =>
    rw [generate_server_existing hostname token o1 o2 o3 o4 o5 s hd]
    exact ⟨hd, fun a => a, fun a => a, fun a => a, fun _ a => a, fun a => a, fun a => a⟩
  | client name o s =>
    rcases generate_client_effects name o s with he | ⟨hn, he | he⟩ <;> rw [he]
    · exact ⟨hd, fun a => a, fun a => a, fun a => a, fun _ a => a, fun a => a, fun a => a⟩
    · exact ⟨hd, fun a => a, fun a => a, fun a => a, fun _ a => a,
        fun h => lookupName_append_some _ _ _ _ h, fun h => lookupName_append_isSome _ _ _ h⟩
    · exact ⟨hd, fun a => a, fun a => a, fun a => a, fun _ a => a,
        fun h => lookupName_append_some _ _ _ _ h, fun h => lookupName_append_isSome _ _ _ h⟩
  | revokeStep name o1 o2 s =>
    rcases revoke_effects name o1 o2 s with he | ⟨hl, he | he⟩ <;> rw [he]
    · exact ⟨hd, fun a => a, fun a => a, fun a => a, fun _ a => a, fun a => a, fun a => a⟩
    · refine ⟨hd, fun a => a, fun a => a, fun a => a, fun _ a => a, ?_, ?_⟩
      · intro h
        rw [lookupName_markRevoked]
        by_cases hnm : n = name
        · rw [if_pos hnm, h]; rfl
        · rw [if_neg hnm]; exact h
      · intro h
        rw [lookupName_markRevoked]
        by_cases hnm : n = name
        · rw [if_pos hnm]
          cases hx : lookupName s.issued n with
          | none => rw [hx] at h; simp at h
          | some b => rfl
        · rw [if_neg hnm]; exact h
    · refine ⟨hd, fun a => a, fun a => a, fun a => a, fun _ a => a, ?_, ?_⟩
      · intro h
        rw [lookupName_markRevoked]
        by_cases hnm : n = name
        · rw [if_pos hnm, h]; rfl
        · rw [if_neg hnm]; exact h
      · intro h
        rw [lookupName_markRevoked]
        by_cases hnm : n = name
        · rw [if_pos hnm]
          cases hx : lookupName s.issued n with
          | none => rw [hx] at h; simp at h
          | some b => rfl
        · rw [if_neg hnm]; exact h
  | crlStep o s =>
    rcases crlOp_effects o s with he | he <;> rw [he] <;>
      exact ⟨hd, fun a => a, fun a => a, fun a => a, fun _ a => a, fun a => a, fun a => a⟩
  | listStep s =>
    rw [list_effects]
    exact ⟨hd, fun a => a, fun a => a, fun a => a, fun _ a => a, fun a => a, fun a => a⟩

theorem reach_keep (n : String) {s t : StoreState} (h : Relation.ReflTransGen Step s t)
    (hd : s.destExists = true) :
    t.destExists = true ∧
    (s.easyrsaInstalled = true → t.easyrsaInstalled = true) ∧
    (s.pkiInitialized = true → t.pkiInitialized = true) ∧
    (s.caExists = true → t.caExists = true) ∧
    (∀ d, s.configJson = some d → t.configJson = some d) ∧
    (lookupName s.issued n = some true → lookupName t.issued n = some true) ∧
    ((lookupName s.issued n).isSome = true → (lookupName t.issued n).isSome = true) := by
  induction h with
  | refl => exact ⟨hd, fun a => a, fun a => a, fun a => a, fun _ a => a, fun a => a, fun a => a⟩
  | tail h1 h2 ih =>
    have hk := step_keep n h2 ih.1
    exact ⟨hk.1, fun a => hk.2.1 (ih.2.1 a), fun a => hk.2.2.1 (ih.2.2.1 a),
      fun a => hk.2.2.2.1 (ih.2.2.2.1 a), fun d a => hk.2.2.2.2.1 d (ih.2.2.2.2.1 d a),
      fun a => hk.2.2.2.2.2.1 (ih.2.2.2.2.2.1 a), fun a => hk.2.2.2.2.2.2 (ih.2.2.2.2.2.2 a)⟩

theorem step_flags {s t : StoreState} (hst : Step s t) (h : FlagsImplyDest s) :
    FlagsImplyDest t := by
  cases hst with
  | server hostname token o1 o2 o3 o4 o5 s =>
    by_cases hd : s.destExists = true
    · rw [generate_server_existing hostname token o1 o2 o3 o4 o5 s hd]
      exact h
    · have hd' : s.destExists = false := by revert hd; cases s.destExists <;> simp
      have hdest := generate_server_destExists hostname token o1 o2 o3 o4 o5 s hd'
      exact ⟨fun _ => hdest, fun _ => hdest, fun _ => hdest⟩
  | client name o s =>
    rcases generate_client_effects name o s with he | ⟨_, he | he⟩ <;> rw [he] <;> exact h
  | revokeStep name o1 o2 s =>
    rcases revoke_effects name o1 o2 s with he | ⟨_, he | he⟩ <;> rw [he] <;> exact h
  | crlStep o s =>
    rcases crlOp_effects o s with he | he <;> rw [he] <;> exact h
  | listStep s =>
    rw [list_effects]
    exact h

theorem step_catls {s t : StoreState} (hst : Step s t) (h : CaTlsConfInv s) :
    CaTlsConfInv t := by
  cases hst with
  | server hostname token o1 o2 o3 o4 o5 s =>
    by_cases hd : s.destExists = true
    · rw [generate_server_existing hostname token o1 o2 o3 o4 o5 s hd]
      exact h
    · have hd' : s.destExists = false := by revert hd; cases s.destExists <;> simp
      have hca : s.caExists = false := by
        cases hc : s.caExists
        · rfl
        · exact absurd (h.2.2.2 hc) (by simp [hd'])
      have htls : s.tlsKeyExists = false := by
        cases hc : s.tlsKeyExists
        · rfl
        · exact absurd (h.2.2.1 hc) (by simp [hd'])
      have hconf : s.serverConfWritten = false := by
        cases hc : s.serverConfWritten
        · rfl
        · exact absurd (h.2.1 hc) (by simp [hd'])
      exact generate_server_catls hostname token o1 o2 o3 o4 o5 s hd' hca htls hconf
  | client name o s =>
    rcases generate_client_effects name o s with he | ⟨_, he | he⟩ <;> rw [he] <;> exact h
  | revokeStep name o1 o2 s =>
    rcases revoke_effects name o1 o2 s with he | ⟨_, he | he⟩ <;> rw [he] <;> exact h
  | crlStep o s =>
    rcases crlOp_effects o s with he | he <;> rw [he] <;> exact h
  | listStep s =>
    rw [list_effects]
    exact h

theorem reach_flags {s : StoreState} (h : Reachable s) : FlagsImplyDest s := by
  unfold Reachable at h
  induction h with
  | refl => refine ⟨?_, ?_, ?_⟩ <;> intro hx <;> simp [initState] at hx
  | tail h1 h2 ih => exact step_flags h2 ih

theorem reach_catls {s : StoreState} (h : Reachable s) : CaTlsConfInv s := by
  unfold Reachable at h
  induction h with
  | refl => refine ⟨?_, ?_, ?_, ?_⟩ <;> simp [initState]
  | tail h1 h2 ih => exact step_catls h2 ih

theorem generate_client_ok (name : String) (o : Bool) (s : StoreState)
    (hok : (generate_client name o s).1 = .ok ()) :
    s.configJson.isSome = true ∧
    (easyrsaPre s && s.pkiInitialized && s.caExists) = true ∧
    lookupName s.issued name = none ∧ s.tlsKeyExists = true ∧
    (generate_client name o s).2 =
      { s with issued := s.issued ++ [(name, false)],
               clientConfs := name :: s.clientConfs } := by
  unfold generate_client at hok ⊢
  cases hc : s.configJson with
  | none =>
    rw [hc] at hok
    simp at hok
  | some d =>
    rw [hc] at hok
    rcases buildFull_cases name o s with ⟨e, hb⟩ | ⟨hpre, hn, hb⟩
    · rw [hb] at hok
      simp at hok
    · simp only [hb] at hok
      by_cases ht : s.tlsKeyExists = true
      · refine ⟨rfl, hpre, hn, ht, ?_⟩
        simp only [hb]
        rw [if_pos ht, ← hc]
      · rw [if_neg ht] at hok
        simp at hok

theorem revoke_ok (name : String) (o1 o2 : Bool) (s : StoreState)
    (hok : (revoke name o1 o2 s).1 = .ok ()) :
    (easyrsaPre s && s.pkiInitialized) = true ∧
    lookupName s.issued name = some false ∧
    (revoke name o1 o2 s).2 =
      { s with issued := markRevoked name s.issued,
               crl := some (revokedNames (markRevoked name s.issued)) } := by
  unfold revoke at hok ⊢
  rcases revokeCall_cases name o1 s with ⟨e, hb⟩ | ⟨hpre, hl, hb⟩
  · rw [hb] at hok
    simp at hok
  · simp only [hb] at hok ⊢
    rcases genCrl_cases o2 { s with issued := markRevoked name s.issued } with h | ⟨hp2, h⟩
    · rw [h] at hok
      simp at hok
    · rw [h]
      exact ⟨hpre, hl, rfl⟩

/-- Claim C4: bootstrap is legal exactly once per store.  A second
bootstrap against a destination directory that already exists fails with
`AlreadyExists` and performs no mutation of the existing store. -/
theorem bootstrap_once (hostname token : String) (o1 o2 o3 o4 o5 : Bool)
    (s : StoreState) (hd : s.destExists = true) :
    generate_server hostname token o1 o2 o3 o4 o5 s = (.error .AlreadyExists, s) :=
  generate_server_existing hostname token o1 o2 o3 o4 o5 s hd

theorem bootstrap_once_witness :
    generate_server "vpn2.example.com" "BBBBBBBBBBBBBBBB" true true true true true
        (bootState "vpn.example.com" "AAAAAAAAAAAAAAAA") =
      (.error .AlreadyExists, bootState "vpn.example.com" "AAAAAAAAAAAAAAAA") :=
  bootstrap_once "vpn2.example.com" "BBBBBBBBBBBBBBBB" true true true true true
    (bootState "vpn.example.com" "AAAAAAAAAAAAAAAA") rfl

/-- Claim C5: once `revoke` succeeds, the revocation list has been
regenerated within that same operation and contains the name; every
revocation list regenerated later still contains the name; and any later
second `revoke` of the same name fails with `AlreadyRevoked`. -/
theorem revoke_contract (name : String) (o1 o2 : Bool) (s : StoreState)
    (hok : (revoke name o1 o2 s).1 = .ok ()) :
    ((revoke name o1 o2 s).2.crl =
        some (revokedNames (revoke name o1 o2 s).2.issued) ∧
      name ∈ revokedNames (revoke name o1 o2 s).2.issued) ∧
    (∀ t, Relation.ReflTransGen Step (revoke name o1 o2 s).2 t →
      (∀ o, (genCrl o t).1 = .ok () → ∃ l, (genCrl o t).2.crl = some l ∧ name ∈ l) ∧
      (∀ o1' o2', (revoke name o1' o2' t).1 = .error .AlreadyRevoked)) := by
  obtain ⟨hpre, hl, hpost⟩ := revoke_ok name o1 o2 s hok
  simp only [easyrsaPre, Bool.and_eq_true] at hpre
  have hrevoked : lookupName (markRevoked name s.issued) name = some true := by
    rw [lookupName_markRevoked, if_pos rfl, hl]
    rfl
  constructor
  · rw [hpost]
    exact ⟨rfl, mem_revokedNames _ _ hrevoked⟩
  · intro t hrtg
    have hpd : (revoke name o1 o2 s).2.destExists = true := by
      rw [hpost]; exact hpre.1.1
    have hk := reach_keep name hrtg hpd
    have htd : t.destExists = true := hk.1
    have hte : t.easyrsaInstalled = true := hk.2.1 (by rw [hpost]; exact hpre.1.2)
    have htp : t.pkiInitialized = true := hk.2.2.1 (by rw [hpost]; exact hpre.2)
    have htl : lookupName t.issued name = some true :=
      hk.2.2.2.2.2.1 (by rw [hpost]; exact hrevoked)
    constructor
    · intro o ho
      rcases genCrl_cases o t with h | ⟨_, h⟩
      · rw [h] at ho
        simp at ho
      · rw [h]
        exact ⟨revokedNames t.issued, rfl, mem_revokedNames _ _ htl⟩
    · intro o1' o2'
      unfold revoke revokeCall
      rw [if_pos (by simp [easyrsaPre, htd, hte, htp])]
      rw [htl]

/-- Claim C6: an identity name can be issued at most once over the lifetime
of a store.  After a successful issuance, any later attempt to issue the
same name fails with `IdentityAlreadyExists` and mutates nothing,
regardless of whether the certificate has been revoked in between. -/
theorem issue_at_most_once (name : String) (o : Bool) (s : StoreState)
    (hok : (generate_client name o s).1 = .ok ()) :
    ∀ t, Relation.ReflTransGen Step (generate_client name o s).2 t →
      ∀ o', generate_client name o' t = (.error .IdentityAlreadyExists, t) := by
  obtain ⟨hcj, hpre, hn, htls, hpost⟩ := generate_client_ok name o s hok
  simp only [easyrsaPre, Bool.and_eq_true] at hpre
  intro t hrtg o'
  have hpd : (generate_client name o s).2.destExists = true := by
    rw [hpost]; exact hpre.1.1.1
  have hk := reach_keep name hrtg hpd
  have htd : t.destExists = true := hk.1
  have hte : t.easyrsaInstalled = true := hk.2.1 (by rw [hpost]; exact hpre.1.1.2)
  have htp : t.pkiInitialized = true := hk.2.2.1 (by rw [hpost]; exact hpre.1.2)
  have htc : t.caExists = true := hk.2.2.2.1 (by rw [hpost]; exact hpre.2)
  have hti : (lookupName t.issued name).isSome = true := by
    apply hk.2.2.2.2.2.2
    rw [hpost]
    show (lookupName (s.issued ++ [(name, false)]) name).isSome = true
    rw [lookupName_append_self s.issued name false hn]
    rfl
  have htcj : t.configJson.isSome = true := by
    cases hcd : s.configJson with
    | none => rw [hcd] at hcj; simp at hcj
    | some d =>
      have h1 : (generate_client name o s).2.configJson = some d := by
        rw [hpost]; exact hcd
      have h2 := hk.2.2.2.2.1 d h1
      rw [h2]
      rfl
  unfold generate_client
  cases hcd : t.configJson with
  | none => rw [hcd] at htcj; simp at htcj
  | some d =>
    have hb : buildFull name o' t = (.error .IdentityAlreadyExists, t) := by
      unfold buildFull
      rw [if_pos (by simp [easyrsaPre, htd, hte, htp, htc])]
      rw [if_pos hti]
    rw [hb]

/-- Claim C9, amended.  First, for every reachable store state, the root
certificate and the shared secret key both exist exactly when bootstrap has
completed.  Second, every identity operation attempted on a reachable store
on which bootstrap has not even begun (the destination directory does not
exist) fails without mutating the store.  After a partially failed
bootstrap, however, an issuance can mutate the index before failing; see
the counterexample. -/
theorem bootstrap_invariant :
    (∀ s, Reachable s →
      ((s.caExists = true ∧ s.tlsKeyExists = true) ↔ BootstrapCompleted s)) ∧
    (∀ s, Reachable s → s.destExists = false →
      (∀ n o, generate_client n o s = (.error .NotInitialized, s)) ∧
      (∀ n o1 o2, revoke n o1 o2 s = (.error .DriverFailure, s)) ∧
      (∀ o, crlOp o s = (.error .DriverFailure, s)) ∧
      list_ s = (.error .IOFailure, s)) := by
  constructor
  · intro s hs
    exact (reach_catls hs).1
  · intro s hs hd
    have hf := reach_flags hs
    have hcj : s.configJson = none := by
      cases hc : s.configJson with
      | none => rfl
      | some d => exact absurd (hf.2.1 (by rw [hc]; rfl)) (by simp [hd])
    have hpre : (easyrsaPre s && s.pkiInitialized) = false := by
      simp [easyrsaPre, hd]
    refine ⟨?_, ?_, ?_, ?_⟩
    · intro n o
      unfold generate_client
      rw [hcj]
    · intro n o1 o2
      unfold revoke revokeCall
      simp [hpre]
    · intro o
      unfold crlOp genCrl
      simp [easyrsaPre, hd]
    · unfold list_
      simp [hd]

/-- Claim C9 counterexample: after a bootstrap interrupted at
`build-server-full`, bootstrap has not completed, the root certificate
exists anyway, and a client issuance attempted in that state fails only
after it has already mutated the store (the identity is issued before the
missing `tls.key` is read). -/
theorem partial_bootstrap_counterexample :
    Reachable brokenBoot ∧ ¬BootstrapCompleted brokenBoot ∧
    brokenBoot.caExists = true ∧
    (generate_client "alice" true brokenBoot).1 = .error .IOFailure ∧
    (generate_client "alice" true brokenBoot).2 ≠ brokenBoot := by
  refine ⟨?_, ?_, ?_, ?_, ?_⟩
  · exact Relation.ReflTransGen.single
      (Step.server "vpn.example.com" "AAAAAAAAAAAAAAAA" true true true false true initState)
  · unfold BootstrapCompleted
    decide
  · rfl
  · rfl
  · decide

theorem bootstrap_invariant_witness :
    ((initState.caExists = true ∧ initState.tlsKeyExists = true) ↔
      BootstrapCompleted initState) ∧
    generate_client "alice" true initState = (.error .NotInitialized, initState) :=
  ⟨bootstrap_invariant.1 initState Relation.ReflTransGen.refl,
   (bootstrap_invariant.2 initState Relation.ReflTransGen.refl rfl).1 "alice" true⟩

/-- Claim C10: for any CLI action verb outside the five-entry action table,
the program dispatches nothing at all and terminates with exit status
zero, leaving the store untouched. -/
theorem unknown_verb_no_op (verb : String)
    (hv : verb ≠ "server" ∧ verb ≠ "client" ∧ verb ≠ "revoke" ∧
      verb ≠ "list" ∧ verb ≠ "crl") :
    mainAction verb = none ∧ ∀ exec s, cliRun exec verb s = (s, 0) := by
  have hm : mainAction verb = none := by
    unfold mainAction
    rw [if_neg hv.1, if_neg hv.2.1, if_neg hv.2.2.1, if_neg hv.2.2.2.1, if_neg hv.2.2.2.2]
  refine ⟨hm, fun exec s => ?_⟩
  unfold cliRun
  rw [hm]

theorem unknown_verb_no_op_witness :
    mainAction "status" = none ∧
    cliRun (fun _ s => (.ok (), s)) "status" initState = (initState, 0) := by
  have h := unknown_verb_no_op "status" (by decide)
  exact ⟨h.1, h.2 (fun _ s => (.ok (), s)) initState⟩

/-- Claim C1 counterexample: for a perfectly valid sixteen-character random
token, the generated server identity name has 23 characters, not 16, and
contains an underscore, which is not alphanumeric. -/
theorem server_name_not_16_chars :
    tokenOk "A0B1C2D3E4F5G6H7" ∧
    ¬((server_name "A0B1C2D3E4F5G6H7").length = 16) ∧
    '_' ∈ (server_name "A0B1C2D3E4F5G6H7").data ∧ '_'.isAlphanum = false :=
  ⟨by decide, by decide, by decide, rfl⟩

/-- Claim C1, amended: the generated server identity name is the literal
prefix followed by the sixteen-character token of uppercase letters and
digits, 23 characters in all; that exact full name is recorded in the
deployment record by a successful bootstrap, never changes afterwards, and
is embedded verbatim in the verify-x509-name field of every client config
rendered from a deployment record carrying it. -/
theorem server_name_structure (token : String) (ht : tokenOk token) :
    (server_name token).length = 23 ∧
    (server_name token).data = "server_".data ++ token.data ∧
    (∀ hostname o1 o2 o3 o4 o5,
      (generate_server hostname token o1 o2 o3 o4 o5 initState).1 = .ok () →
      (generate_server hostname token o1 o2 o3 o4 o5 initState).2.configJson =
        some ⟨server_name token, hostname⟩ ∧
      ∀ t, Relation.ReflTransGen Step
          (generate_server hostname token o1 o2 o3 o4 o5 initState).2 t →
        t.configJson = some ⟨server_name token, hostname⟩) ∧
    (∀ fs dr n doc, dr.server_name = server_name token →
      renderClientConfig fs dr n = some doc →
      ∃ a b, doc = a ++ ("verify-x509-name " ++ server_name token ++ " name\n") ++ b) := by
  refine ⟨?_, ?_, ?_, ?_⟩
  · show ("server_" ++ token).length = 23
    rw [String.length_append, ht.1]
    rfl
  · show ("server_" ++ token).data = "server_".data ++ token.data
    exact String.data_append _ _
  · intro hostname o1 o2 o3 o4 o5 hok
    have hboot := generate_server_boot hostname token o1 o2 o3 o4 o5 hok
    refine ⟨by rw [hboot]; rfl, ?_⟩
    intro t hrtg
    rw [hboot] at hrtg
    have hk := reach_keep "" hrtg rfl
    exact hk.2.2.2.2.1 ⟨server_name token, hostname⟩ rfl
  · intro fs dr n doc hdr hdoc
    obtain ⟨ca, cert, key, tlskey, _, _, _, _, hd2⟩ :=
      renderClientConfig_some fs dr n doc hdoc
    subst hd2
    rw [hdr]
    refine ⟨COMMON_CONF ++ ("client\nremote " ++ dr.hostname ++
      " 1194\nresolv-retry infinite\nnobind\nremote-cert-tls server\n"),
      INLINE_CONF ca cert key tlskey, ?_⟩
    unfold CLIENT_CONF
    have l3 : (" 1194\nresolv-retry infinite\nnobind\nremote-cert-tls server\nverify-x509-name " : String) =
        " 1194\nresolv-retry infinite\nnobind\nremote-cert-tls server\n" ++ "verify-x509-name " := rfl
    rw [l3]
    simp only [str_assoc]

theorem server_name_structure_witness :
    (server_name "A0B1C2D3E4F5G6H7").length = 23 ∧
    (generate_server "vpn.example.com" "A0B1C2D3E4F5G6H7" true true true true true
        initState).2.configJson =
      some ⟨server_name "A0B1C2D3E4F5G6H7", "vpn.example.com"⟩ ∧
    ∃ a b, sampleClientDoc =
      a ++ ("verify-x509-name " ++ server_name "A0B1C2D3E4F5G6H7" ++ " name\n") ++ b := by
  have h := server_name_structure "A0B1C2D3E4F5G6H7" (by decide)
  exact ⟨h.1, (h.2.2.1 "vpn.example.com" true true true true true rfl).1,
    h.2.2.2 sampleFS sampleDR "alice" sampleClientDoc rfl (by rfl)⟩

theorem revoke_contract_witness :
    ((revoke "alice" true true issuedState).2.crl =
        some (revokedNames (revoke "alice" true true issuedState).2.issued) ∧
      "alice" ∈ revokedNames (revoke "alice" true true issuedState).2.issued) ∧
    (revoke "alice" true true (revoke "alice" true true issuedState).2).1 =
      .error .AlreadyRevoked := by
  have h := revoke_contract "alice" true true issuedState (by rfl)
  exact ⟨h.1, (h.2 _ Relation.ReflTransGen.refl).2 true true⟩

theorem issue_at_most_once_witness :
    generate_client "alice" true issuedState =
      (.error .IdentityAlreadyExists, issuedState) ∧
    generate_client "alice" true (revoke "alice" true true issuedState).2 =
      (.error .IdentityAlreadyExists, (revoke "alice" true true issuedState).2) := by
  have h := issue_at_most_once "alice" true
    (bootState "vpn.example.com" "AAAAAAAAAAAAAAAA") (by rfl)
  exact ⟨h issuedState Relation.ReflTransGen.refl true,
    h _ (Relation.ReflTransGen.single (Step.revokeStep "alice" true true issuedState)) true⟩
